import Mathlib

set_option maxRecDepth 10000

/-!
Verification model of the latex-lsp language-server message-dispatch engine.

The definitions below are a shallow embedding of the Rust sources:
  * `Jsonrpc.*`      — src/language-server/src/jsonrpc.rs (message model and
                       its serde wire behaviour, modelled on the JSON value
                       level: `Json` plays the role of serde_json::Value, and
                       the encoders/decoders mirror the derived serde
                       implementations field by field, including the
                       untagged `Message` enum and the `deserialize_some`
                       helper for `Response.result`);
  * `LspService.*`   — src/language-server/src/lib.rs (the dispatcher:
                       handle_incoming / handle_request / handle_notification);
  * `Client.*`       — src/language-server/src/client.rs (pending-request
                       table, id allocation, response correlation);
  * `Dispatch.*`     — a small-step interleaving model of `LspService::listen`
                       used for the temporal ordering claims.
-/

namespace Jsonrpc

/-- JSON values, the counterpart of serde_json::Value (numbers restricted to
integers, which covers every number the message model itself produces;
payload positions are opaque and carried verbatim). -/
inductive Json where
  | null
  | bool (b : Bool)
  | num (n : Int)
  | str (s : String)
  | arr (elems : List Json)
  | obj (fields : List (String × Json))

/-- The identifier that is used in a JSON-RPC message (jsonrpc.rs, enum Id).
`number` carries the u64 payload as a Nat; `Id.wf` below records the u64
range constraint of the Rust type. -/
inductive Id where
  | number (n : Nat)
  | string (s : String)
deriving DecidableEq

/-- The JSON-RPC error codes (jsonrpc.rs, enum ErrorCode). -/
inductive ErrorCode where
  | ParseError
  | InvalidRequest
  | MethodNotFound
  | InvalidParams
  | InternalError
  | ServerNotInitialized
  | UnknownErrorCode
  | RequestCancelled
deriving DecidableEq

/-- The integer wire value of each error code (the repr(i32) values). -/
def ErrorCode.toInt : ErrorCode → Int
  | .ParseError => -32700
  | .InvalidRequest => -32600
  | .MethodNotFound => -32601
  | .InvalidParams => -32602
  | .InternalError => -32603
  | .ServerNotInitialized => -32002
  | .UnknownErrorCode => -32001
  | .RequestCancelled => -32800

/-- Deserialization of an error code from its integer wire value
(serde_repr: any other integer is rejected). -/
def ErrorCode.ofInt (n : Int) : Option ErrorCode :=
  if n = -32700 then some .ParseError
  else if n = -32600 then some .InvalidRequest
  else if n = -32601 then some .MethodNotFound
  else if n = -32602 then some .InvalidParams
  else if n = -32603 then some .InternalError
  else if n = -32002 then some .ServerNotInitialized
  else if n = -32001 then some .UnknownErrorCode
  else if n = -32800 then some .RequestCancelled
  else none

/-- The error type for JSON-RPC messages (jsonrpc.rs, struct Error). -/
structure Error where
  code : ErrorCode
  message : String
  data : Option Json

/-- Error::parse_error. -/
def Error.parse_error : Error :=
  { code := .ParseError, message := "Could not parse the input", data := none }

/-- Error::method_not_found_error. -/
def Error.method_not_found_error : Error :=
  { code := .MethodNotFound, message := "Method not found", data := none }

/-- Error::deserialize_error. -/
def Error.deserialize_error : Error :=
  { code := .InvalidParams, message := "Could not deserialize parameter object", data := none }

/-- Error::internal_error. -/
def Error.internal_error (message : String) : Error :=
  { code := .InternalError, message := message, data := none }

/-- The request type for JSON-RPC messages (jsonrpc.rs, struct Request). -/
structure Request where
  jsonrpc : String
  method : String
  params : Json
  id : Id

/-- Request::new (fills in the protocol version "2.0"). -/
def Request.new (method : String) (params : Json) (id : Id) : Request :=
  { jsonrpc := "2.0", method := method, params := params, id := id }

/-- The response type for JSON-RPC messages (jsonrpc.rs, struct Response). -/
structure Response where
  jsonrpc : String
  result : Option Json
  error : Option Error
  id : Option Id

/-- Response::result. -/
def Response.mkResult (result : Json) (id : Id) : Response :=
  { jsonrpc := "2.0", result := some result, error := none, id := some id }

/-- Response::error. -/
def Response.mkError (error : Error) (id : Option Id) : Response :=
  { jsonrpc := "2.0", result := none, error := some error, id := id }

/-- The notification type for JSON-RPC messages (jsonrpc.rs, struct Notification). -/
structure Notification where
  jsonrpc : String
  method : String
  params : Json

/-- Notification::new. -/
def Notification.new (method : String) (params : Json) : Notification :=
  { jsonrpc := "2.0", method := method, params := params }

/-- A JSON-RPC message (jsonrpc.rs, untagged enum Message; variant order
Request, Notification, Response matters for deserialization). -/
inductive Message where
  | request (r : Request)
  | notification (n : Notification)
  | response (r : Response)

/-! ### Serialization (the derived serde Serialize impls, on the value level) -/

/-- Serialization of an Id (untagged: a bare number or string). -/
def encodeId : Id → Json
  | .number n => .num (Int.ofNat n)
  | .string s => .str s

/-- Serialization of an Error; `data` is omitted when absent
(skip_serializing_if = Option::is_none). -/
def encodeError (e : Error) : Json :=
  .obj ([("code", .num e.code.toInt), ("message", .str e.message)] ++
    (match e.data with
     | none => []
     | some v => [("data", v)]))

/-- Serialization of a Request (fields in declaration order). -/
def encodeRequest (r : Request) : Json :=
  .obj [("jsonrpc", .str r.jsonrpc), ("method", .str r.method),
        ("params", r.params), ("id", encodeId r.id)]

/-- Serialization of a Notification. -/
def encodeNotification (n : Notification) : Json :=
  .obj [("jsonrpc", .str n.jsonrpc), ("method", .str n.method), ("params", n.params)]

/-- Serialization of a Response: `result` and `error` are omitted when absent
(skip_serializing_if = Option::is_none); `id` is always present, as null when
absent (no skip attribute on id). -/
def encodeResponse (r : Response) : Json :=
  .obj ([("jsonrpc", .str r.jsonrpc)] ++
    (match r.result with
     | none => []
     | some v => [("result", v)]) ++
    (match r.error with
     | none => []
     | some e => [("error", encodeError e)]) ++
    [("id", match r.id with
            | none => .null
            | some i => encodeId i)])

/-- Serialization of a Message (untagged: the variant's own form). -/
def encodeMessage : Message → Json
  | .request r => encodeRequest r
  | .notification n => encodeNotification n
  | .response r => encodeResponse r

/-! ### Deserialization (the derived serde Deserialize impls) -/

/-- First value bound to a key in a JSON object. -/
def getField : List (String × Json) → String → Option Json
  | [], _ => none
  | (k, v) :: rest, key => if k = key then some v else getField rest key

/-- Extract a JSON string (serde String field). -/
def Json.asStr : Json → Option String
  | .str s => some s
  | _ => none

/-- Deserialization of an Id: a JSON number in u64 range, or a string
(untagged, Number tried first). -/
def decodeId : Json → Option Id
  | .num n => if 0 ≤ n ∧ n < (2 : Int) ^ 64 then some (Id.number n.toNat) else none
  | .str s => some (Id.string s)
  | _ => none

/-- One serde field extraction of a String-typed field: look the key up and
require a JSON string. -/
def strField (fields : List (String × Json)) (key : String) : Option String :=
  (getField fields key).bind Json.asStr

/-- One serde field extraction of the Id-typed field "id" of a Request. -/
def idField (fields : List (String × Json)) : Option Id :=
  (getField fields "id").bind decodeId

/-- Deserialization of the repr(i32) ErrorCode from a JSON value: must be a
number carrying one of the eight fixed code values. -/
def errorCodeValue : Json → Option ErrorCode
  | .num k => ErrorCode.ofInt k
  | _ => none

/-- The "code" field of an Error. -/
def codeField (fields : List (String × Json)) : Option ErrorCode :=
  (getField fields "code").bind errorCodeValue

/-- serde's handling of the Option field "data" of an Error: a missing field
and an explicit null both deserialize to none; this step cannot fail. -/
def dataValue : Option Json → Option Json
  | none => none
  | some .null => none
  | some v => some v

/-- The "data" field of an Error. -/
def dataField (fields : List (String × Json)) : Option Json :=
  dataValue (getField fields "data")

/-- Deserialization of an Error: `code` and `message` required; `data` is an
Option field, so a missing field and an explicit null both become none. -/
def decodeError (j : Json) : Option Error :=
  match j with
  | .obj fields =>
    match codeField fields, strField fields "message" with
    | some code, some message =>
      some { code := code, message := message, data := dataField fields }
    | _, _ => none
  | _ => none

/-- serde's handling of the Option field "error" of a Response: missing or
null become none; any other value must deserialize as an Error. -/
def errorValue : Option Json → Option (Option Error)
  | none => some none
  | some .null => some none
  | some ej => (decodeError ej).map some

/-- The "error" field of a Response. -/
def errorField (fields : List (String × Json)) : Option (Option Error) :=
  errorValue (getField fields "error")

/-- serde's handling of the Option field "id" of a Response: missing or null
become none; any other value must deserialize as an Id. -/
def idValue : Option Json → Option (Option Id)
  | none => some none
  | some .null => some none
  | some idj => (decodeId idj).map some

/-- The "id" field of a Response. -/
def respIdField (fields : List (String × Json)) : Option (Option Id) :=
  idValue (getField fields "id")

/-- Deserialization of a Request: all four fields required (the jsonrpc field
must be present and a string, but its value is not validated); unknown fields
are ignored; the whole struct deserializes exactly when every field does. -/
def decodeRequest (j : Json) : Option Request :=
  match j with
  | .obj fields =>
    match strField fields "jsonrpc", strField fields "method",
          getField fields "params", idField fields with
    | some jsonrpc, some method, some params, some id =>
      some { jsonrpc := jsonrpc, method := method, params := params, id := id }
    | _, _, _, _ => none
  | _ => none

/-- Deserialization of a Notification: jsonrpc, method, params required;
unknown fields (such as id) are ignored. -/
def decodeNotification (j : Json) : Option Notification :=
  match j with
  | .obj fields =>
    match strField fields "jsonrpc", strField fields "method",
          getField fields "params" with
    | some jsonrpc, some method, some params =>
      some { jsonrpc := jsonrpc, method := method, params := params }
    | _, _, _ => none
  | _ => none

/-- Deserialization of a Response: only jsonrpc is required. `result` uses
deserialize_some with a default, so a missing field is none but an explicit
null is some null (the extraction cannot fail); `error` and `id` are plain
Option fields. -/
def decodeResponse (j : Json) : Option Response :=
  match j with
  | .obj fields =>
    match strField fields "jsonrpc", errorField fields, respIdField fields with
    | some jsonrpc, some error, some id =>
      some { jsonrpc := jsonrpc, result := getField fields "result",
             error := error, id := id }
    | _, _, _ => none
  | _ => none

/-- Deserialization of a Message: untagged, variants tried in declaration
order (Request, then Notification, then Response); the first success wins. -/
def decodeMessage (j : Json) : Option Message :=
  match decodeRequest j with
  | some r => some (Message.request r)
  | none =>
    match decodeNotification j with
    | some n => some (Message.notification n)
    | none => (decodeResponse j).map Message.response

/-- Unfolding of decodeRequest at an object. -/
theorem decodeRequest_obj (fields : List (String × Json)) :
    decodeRequest (.obj fields) =
      match strField fields "jsonrpc", strField fields "method",
            getField fields "params", idField fields with
      | some jsonrpc, some method, some params, some id =>
        some { jsonrpc := jsonrpc, method := method, params := params, id := id }
      | _, _, _, _ => none := rfl

/-- Unfolding of decodeNotification at an object. -/
theorem decodeNotification_obj (fields : List (String × Json)) :
    decodeNotification (.obj fields) =
      match strField fields "jsonrpc", strField fields "method",
            getField fields "params" with
      | some jsonrpc, some method, some params =>
        some { jsonrpc := jsonrpc, method := method, params := params }
      | _, _, _ => none := rfl

/-- Unfolding of decodeResponse at an object. -/
theorem decodeResponse_obj (fields : List (String × Json)) :
    decodeResponse (.obj fields) =
      match strField fields "jsonrpc", errorField fields, respIdField fields with
      | some jsonrpc, some error, some id =>
        some { jsonrpc := jsonrpc, result := getField fields "result",
               error := error, id := id }
      | _, _, _ => none := rfl

/-- Unfolding of decodeMessage. -/
theorem decodeMessage_def (j : Json) :
    decodeMessage j =
      match decodeRequest j with
      | some r => some (Message.request r)
      | none =>
        match decodeNotification j with
        | some n => some (Message.notification n)
        | none => (decodeResponse j).map Message.response := rfl

/-! ### Well-formedness: the u64 range of the Rust Id type -/

/-- A model Id is representable as the Rust Id exactly when a numeric payload
fits in u64. -/
def Id.wf : Id → Prop
  | .number n => n < 2 ^ 64
  | .string _ => True

/-- All ids contained in a message fit in u64 (automatic for any value of the
Rust types, where the payload is a u64). -/
def Message.wf : Message → Prop
  | .request r => r.id.wf
  | .notification _ => True
  | .response r =>
    match r.id with
    | none => True
    | some i => i.wf

/-- The wire form of a message determines it uniquely unless an Error carries
an explicit null data payload (which serde collapses to an absent data field
on the way back in). -/
def Message.wireFaithful : Message → Prop
  | .request _ => True
  | .notification _ => True
  | .response r =>
    match r.error with
    | none => True
    | some e => e.data ≠ some Json.null

end Jsonrpc

namespace LspService

open Jsonrpc

/-- One request-handler binding, abstracting a bound arm of the handle! match
in LspService::handle_incoming together with the host handler it calls:
`decodeParams` is serde_json::from_value into the handler's parameter type
(none on decode failure; the decoded value is kept as opaque JSON), and `run`
is the host handler, returning the serialized result on success or the
failure message otherwise (lib.rs, handle_request). -/
structure RequestBinding where
  decodeParams : Json → Option Json
  run : Json → Except String Json

/-- One notification-handler binding: parameter decoding for the bound host
handler (lib.rs, handle_notification). -/
structure NotificationBinding where
  decodeParams : Json → Option Json

/-- A method→handler binding table, abstracting the literal method-name match
generated by the handle! macro (a missing entry is the match's default arm). -/
def RequestTable := String → Option RequestBinding

/-- The notification binding table. -/
def NotificationTable := String → Option NotificationBinding

/-- LspService::handle_request (lib.rs lines 163-186): decode the params,
run the handler, and turn the outcome into exactly one Response carrying the
request's id: success becomes a result response; a handler failure becomes an
InternalError response with the handler's message; a params decode failure
becomes the deserialize_error (InvalidParams) response. -/
def handle_request (b : RequestBinding) (request : Request) : Response :=
  match b.decodeParams request.params with
  | none => Response.mkError Error.deserialize_error (some request.id)
  | some params =>
    match b.run params with
    | .error msg => Response.mkError (Error.internal_error msg) (some request.id)
    | .ok result => Response.mkResult result request.id

/-- The request arm of LspService::handle_incoming (lib.rs lines 94-136):
look the method up in the binding table; a bound method goes through
handle_request, an unbound one produces the method_not_found_error response
with the request's id (the match default). -/
def dispatch_request (tbl : RequestTable) (r : Request) : Response :=
  match tbl r.method with
  | some b => handle_request b r
  | none => Response.mkError Error.method_not_found_error (some r.id)

/-- Observable outcome of the notification arm of handle_incoming. -/
inductive NotifOutcome where
  | dropped
  | handled (params : Json)
  | panicked (msg : String)

/-- The notification arm of handle_incoming together with
LspService::handle_notification (lib.rs lines 137-151 and 188-200): an
unbound method hits the match default `()` and the notification is dropped;
a bound method decodes the params, panicking with the deserialize_error
message on failure (the expect call), and otherwise runs the handler inline. -/
def dispatch_notification (tbl : NotificationTable) (n : Notification) : NotifOutcome :=
  match tbl n.method with
  | none => .dropped
  | some b =>
    match b.decodeParams n.params with
    | none => .panicked Error.deserialize_error.message
    | some params => .handled params

/-- What handle_incoming does with one inbound frame body (lib.rs lines
87-161): the responses enqueued on the outbound channel, paired with the
inline notification outcome when the frame was a notification. A request
frame produces exactly the one response its spawned task sends; a
notification frame produces no wire output and is handled inline; a response
frame is forwarded to Client::handle instead (modelled separately); an
undecodable body produces the parse_error response with a null id. -/
def handle_incoming (tbl : RequestTable) (ntbl : NotificationTable) (j : Json) :
    List Response × Option NotifOutcome :=
  match decodeMessage j with
  | some (.request r) => ([dispatch_request tbl r], none)
  | some (.notification n) => ([], some (dispatch_notification ntbl n))
  | some (.response _) => ([], none)
  | none => ([Response.mkError Error.parse_error none], none)

/-- The input loop of LspService::listen (lib.rs lines 75-85): frames are
read sequentially and each one goes through handle_incoming; the loop only
stops at end of input, never because of a parse failure. -/
def listen (tbl : RequestTable) (ntbl : NotificationTable) : List Json → List Response
  | [] => []
  | j :: rest => (handle_incoming tbl ntbl j).1 ++ listen tbl ntbl rest

end LspService

namespace Client

open Jsonrpc

/-- The pending-request table senders_by_id (client.rs): a map from ids to
one-shot result senders, here identified by opaque tokens. -/
def PendingTable := Id → Option Nat

/-- The two panic exits of Client::handle (the expect calls). -/
inductive HandleFailure where
  | missing_id
  | unexpected_response
deriving DecidableEq

/-- Client::handle (client.rs lines 149-167, the ResponseHandler impl):
a response without an id panics ("Expected response with id"); the result is
Err of the peer's error when present, else Ok of the result with null
substituted for an omitted result; the pending entry under the id is removed,
panicking when there is none ("Unexpected response received"); the removed
one-shot sender is resolved with the result. The normal return carries the
table after removal, the resolved sender and the resolution value. -/
def handle (tbl : PendingTable) (response : Response) :
    Except HandleFailure (PendingTable × Nat × Except Error Json) :=
  match response.id with
  | none => .error .missing_id
  | some id =>
    let result : Except Error Json :=
      match response.error with
      | some why => .error why
      | none => .ok (response.result.getD Json.null)
    match tbl id with
    | none => .error .unexpected_response
    | some result_tx => .ok (fun x => if x = id then none else tbl x, result_tx, result)

/-- AtomicU64::fetch_add(1) on the request_id counter: returns the previous
value and stores the incremented value, wrapping at 2^64. -/
def fetch_add (c : Nat) : Nat × Nat :=
  (c, (c + 1) % 2 ^ 64)

/-- The numeric ids handed out by n consecutive atomic fetch_add operations
starting from counter value c. Concurrent send_request calls each perform
one such atomic operation, so for any interleaving this list is the ids in
the order of the atomic counter operations (the allocation order). -/
def allocated_ids (c : Nat) : Nat → List Nat
  | 0 => []
  | n + 1 =>
    let (v, c') := fetch_add c
    v :: allocated_ids c' n

/-- Counter value after n fetch_add operations starting from c. -/
def counter_after (c : Nat) : Nat → Nat
  | 0 => c
  | n + 1 => counter_after (fetch_add c).2 n

/-- The observable steps of one Client::send_request call, in program order
(client.rs lines 119-137). -/
inductive SendEvent where
  | alloc (id : Nat)
  | insertPending (id : Nat)
  | enqueue (id : Nat)
deriving DecidableEq

/-- Client state as seen by send_request: the request_id counter, the
senders_by_id table and the outbound channel contents. -/
structure State where
  request_id : Nat
  senders_by_id : PendingTable
  output : List Request

/-- Client::send_request (client.rs lines 119-137), unrolled into its three
observable steps: allocate the id by fetch_add, insert the one-shot sender
into senders_by_id under that id (inside the table lock), and only then
enqueue the Request on the outbound channel. Each step is paired with the
state right after it executes; the fresh one-shot sender is identified by
the allocated id. -/
def send_request_steps (s : State) (method : String) (params : Json) :
    List (SendEvent × State) :=
  let (id, c') := fetch_add s.request_id
  let s1 : State := { s with request_id := c' }
  let s2 : State :=
    { s1 with senders_by_id := fun x => if x = Id.number id then some id else s1.senders_by_id x }
  let request := Request.new method params (Id.number id)
  let s3 : State := { s2 with output := s2.output ++ [request] }
  [(.alloc id, s1), (.insertPending id, s2), (.enqueue id, s3)]

end Client

namespace Dispatch

/-- A frame as classified by the input loop of LspService::listen: a request
(whose handler is spawned as a concurrent task taking `work` scheduler steps)
or a notification (whose handler is awaited inline and takes `work` steps). -/
inductive Frame where
  | request (work : Nat)
  | notification (work : Nat)
deriving DecidableEq

/-- Scheduler-visible events. nstart/nwork/nend mark the inline notification
handler for the frame at the given input position; rstep/rdone mark progress
and completion of a spawned request-handler task. -/
inductive Event where
  | nstart (i : Nat)
  | nwork (i : Nat)
  | nend (i : Nat)
  | rstep (i : Nat)
  | rdone (i : Nat)
deriving DecidableEq

/-- A state of the dispatcher: how many frames the input loop has consumed,
the remaining input frames, the inline notification handler the input task is
currently awaiting (frame index and remaining steps), the pool of spawned
request tasks, and the global event trace. -/
structure DState where
  consumed : Nat
  queue : List Frame
  current : Option (Nat × Nat)
  tasks : List (Nat × Nat)
  trace : List Event

/-- One scheduler step. The input task reads the next frame only while it is
not awaiting an inline notification handler (`current = none`): that is the
`.await` of handle_incoming inside the listen loop. A request frame spawns a
task that any later step may advance (tokio::spawn); a notification frame
starts the inline handler. Spawned request tasks interleave freely. -/
inductive Step : DState → DState → Prop where
  | read_request (s : DState) (w : Nat) (rest : List Frame) :
      s.current = none → s.queue = Frame.request w :: rest →
      Step s { consumed := s.consumed + 1, queue := rest, current := none,
               tasks := (s.consumed, w) :: s.tasks, trace := s.trace }
  | read_notification (s : DState) (w : Nat) (rest : List Frame) :
      s.current = none → s.queue = Frame.notification w :: rest →
      Step s { consumed := s.consumed + 1, queue := rest,
               current := some (s.consumed, w), tasks := s.tasks,
               trace := s.trace ++ [Event.nstart s.consumed] }
  | notification_work (s : DState) (k w : Nat) :
      s.current = some (k, w + 1) →
      Step s { s with current := some (k, w), trace := s.trace ++ [Event.nwork k] }
  | notification_done (s : DState) (k : Nat) :
      s.current = some (k, 0) →
      Step s { s with current := none, trace := s.trace ++ [Event.nend k] }
  | task_work (s : DState) (k w : Nat) (l r : List (Nat × Nat)) :
      s.tasks = l ++ (k, w + 1) :: r →
      Step s { s with tasks := l ++ (k, w) :: r, trace := s.trace ++ [Event.rstep k] }
  | task_done (s : DState) (k : Nat) (l r : List (Nat × Nat)) :
      s.tasks = l ++ (k, 0) :: r →
      Step s { s with tasks := l ++ r, trace := s.trace ++ [Event.rdone k] }

/-- Initial state of listen on an input stream of frames. -/
def init (fs : List Frame) : DState :=
  { consumed := 0, queue := fs, current := none, tasks := [], trace := [] }

/-- All states some scheduling of listen can reach on the given input. -/
def Reaches (fs : List Frame) (s : DState) : Prop :=
  Relation.ReflTransGen Step (init fs) s

/-- The start and end events of the inline handlers of the notifications at
input positions i and j. -/
def keep (i j : Nat) : Event → Bool
  | .nstart k => k = i || k = j
  | .nend k => k = i || k = j
  | _ => false

/-- The exact subtrace of nstart/nend events of notifications i < j as a
function of the dispatcher position: nothing before frame i is read, the
start of i while its handler is inline, both of its events once it finished,
the start of j while its handler is inline, and all four events afterwards. -/
def projSpec (i j c : Nat) (cur : Option (Nat × Nat)) : List Event :=
  if c ≤ i then []
  else
    match cur with
    | some (k, _) =>
      if k = i then [Event.nstart i]
      else if k = j then [Event.nstart i, Event.nend i, Event.nstart j]
      else if c ≤ j then [Event.nstart i, Event.nend i]
      else [Event.nstart i, Event.nend i, Event.nstart j, Event.nend j]
    | none =>
      if c ≤ j then [Event.nstart i, Event.nend i]
      else [Event.nstart i, Event.nend i, Event.nstart j, Event.nend j]

/-- Invariant tying a reachable state to the notification subtrace. -/
def Inv (fs : List Frame) (i j : Nat) (s : DState) : Prop :=
  s.queue = fs.drop s.consumed ∧
  (∀ k w, s.current = some (k, w) → s.consumed = k + 1) ∧
  s.trace.filter (keep i j) = projSpec i j s.consumed s.current

end Dispatch

open Jsonrpc LspService Client Dispatch

/-- C1: every frame that decodes to a Request makes the dispatcher emit
exactly one Response (never zero, never more than one) whose id equals the
request's id: a result response on handler success, an InternalError
response carrying the handler's message on handler failure, the InvalidParams
deserialize_error response on a params decode failure, and the MethodNotFound
response on an unbound method. -/
theorem c1_request_exactly_one_response (tbl : RequestTable) (ntbl : NotificationTable)
    (j : Json) (r : Request) (h : decodeMessage j = some (Message.request r)) :
    (handle_incoming tbl ntbl j).1 = [dispatch_request tbl r] ∧
    (handle_incoming tbl ntbl j).1.length = 1 ∧
    (dispatch_request tbl r).id = some r.id ∧
    (∀ b, tbl r.method = some b →
      (∀ p v, b.decodeParams r.params = some p → b.run p = .ok v →
        dispatch_request tbl r = Response.mkResult v r.id) ∧
      (∀ p m, b.decodeParams r.params = some p → b.run p = .error m →
        dispatch_request tbl r = Response.mkError (Error.internal_error m) (some r.id)) ∧
      (b.decodeParams r.params = none →
        dispatch_request tbl r = Response.mkError Error.deserialize_error (some r.id))) ∧
    (tbl r.method = none →
      dispatch_request tbl r = Response.mkError Error.method_not_found_error (some r.id)) := by
  refine ⟨by simp [handle_incoming, h], by simp [handle_incoming, h], ?_, ?_, ?_⟩
  · unfold dispatch_request
    cases htbl : tbl r.method with
    | none => simp [Response.mkError]
    | some b =>
      unfold handle_request
      cases hp : b.decodeParams r.params with
      | none => simp [hp, Response.mkError]
      | some p =>
        cases hr : b.run p with
        | error m => simp [hp, hr, Response.mkError]
        | ok v => simp [hp, hr, Response.mkResult]
  · intro b hb
    refine ⟨?_, ?_, ?_⟩
    · intro p v hp hv
      simp [dispatch_request, hb, handle_request, hp, hv]
    · intro p m hp hm
      simp [dispatch_request, hb, handle_request, hp, hm]
    · intro hp
      simp [dispatch_request, hb, handle_request, hp]
  · intro hn
    simp [dispatch_request, hn]

/-- Witness for C1 at a concrete frame: an inbound request with an unbound
method gets exactly the MethodNotFound response echoing its id. -/
theorem c1_witness :
    (handle_incoming (fun _ => none) (fun _ => none)
      (Json.obj [("jsonrpc", .str "2.0"), ("method", .str "foo"),
                 ("params", .null), ("id", .num 1)])).1 =
      [dispatch_request (fun _ => none)
        { jsonrpc := "2.0", method := "foo", params := .null, id := .number 1 }] :=
  (c1_request_exactly_one_response (fun _ => none) (fun _ => none)
    (Json.obj [("jsonrpc", .str "2.0"), ("method", .str "foo"),
               ("params", .null), ("id", .num 1)])
    { jsonrpc := "2.0", method := "foo", params := .null, id := .number 1 }
    rfl).1

/-- C7: a frame body that does not decode into a Message makes the
dispatcher enqueue exactly one Response with a null id and the ParseError
error (code -32700, message "Could not parse the input"), and the input
loop keeps processing the remaining frames. -/
theorem c7_parse_error_response (tbl : RequestTable) (ntbl : NotificationTable)
    (j : Json) (rest : List Json) (h : decodeMessage j = none) :
    handle_incoming tbl ntbl j = ([Response.mkError Error.parse_error none], none) ∧
    Error.parse_error.code.toInt = -32700 ∧
    Error.parse_error.message = "Could not parse the input" ∧
    listen tbl ntbl (j :: rest) =
      Response.mkError Error.parse_error none :: listen tbl ntbl rest := by
  have h1 : handle_incoming tbl ntbl j = ([Response.mkError Error.parse_error none], none) := by
    simp [handle_incoming, h]
  refine ⟨h1, rfl, rfl, ?_⟩
  show (handle_incoming tbl ntbl j).1 ++ listen tbl ntbl rest = _
  rw [h1]
  rfl

/-- Witness for C7: the frame body 0 (a JSON number is no Message); the
following well-formed frame is still processed by the loop. -/
theorem c7_witness :
    handle_incoming (fun _ => none) (fun _ => none) (Json.num 0) =
      ([Response.mkError Error.parse_error none], none) ∧
    Error.parse_error.code.toInt = -32700 ∧
    Error.parse_error.message = "Could not parse the input" ∧
    listen (fun _ => none) (fun _ => none) (Json.num 0 :: [Json.num 1]) =
      Response.mkError Error.parse_error none ::
        listen (fun _ => none) (fun _ => none) [Json.num 1] :=
  c7_parse_error_response (fun _ => none) (fun _ => none) (Json.num 0) [Json.num 1] rfl

/-- C8: a decoded Request whose method is unbound gets exactly the
MethodNotFound response (code -32601) echoing the request's id, while a
decoded Notification whose method is unbound produces no wire output at all
and is dropped. -/
theorem c8_unknown_method (tbl : RequestTable) (ntbl : NotificationTable) :
    (∀ j r, decodeMessage j = some (Message.request r) → tbl r.method = none →
      handle_incoming tbl ntbl j =
        ([Response.mkError Error.method_not_found_error (some r.id)], none) ∧
      Error.method_not_found_error.code.toInt = -32601) ∧
    (∀ j n, decodeMessage j = some (Message.notification n) → ntbl n.method = none →
      handle_incoming tbl ntbl j = ([], some NotifOutcome.dropped)) := by
  constructor
  · intro j r hj htbl
    refine ⟨?_, rfl⟩
    simp [handle_incoming, hj, dispatch_request, htbl]
  · intro j n hj htbl
    simp [handle_incoming, hj, dispatch_notification, htbl]

/-- Witness for C8: a request and a notification with unbound methods in an
empty binding table. -/
theorem c8_witness :
    handle_incoming (fun _ => none) (fun _ => none)
      (Json.obj [("jsonrpc", .str "2.0"), ("method", .str "m"),
                 ("params", .null), ("id", .num 7)]) =
      ([Response.mkError Error.method_not_found_error (some (Id.number 7))], none) ∧
    handle_incoming (fun _ => none) (fun _ => none)
      (Json.obj [("jsonrpc", .str "2.0"), ("method", .str "m"), ("params", .null)]) =
      ([], some NotifOutcome.dropped) :=
  ⟨((c8_unknown_method (fun _ => none) (fun _ => none)).1
      (Json.obj [("jsonrpc", .str "2.0"), ("method", .str "m"),
                 ("params", .null), ("id", .num 7)])
      { jsonrpc := "2.0", method := "m", params := .null, id := .number 7 }
      rfl rfl).1,
   (c8_unknown_method (fun _ => none) (fun _ => none)).2
      (Json.obj [("jsonrpc", .str "2.0"), ("method", .str "m"), ("params", .null)])
      { jsonrpc := "2.0", method := "m", params := .null }
      rfl rfl⟩

/-- C9: a decoded Request whose params fail to decode for its bound handler
gets exactly the InvalidParams response "Could not deserialize parameter
object" carrying the request's id, and a decoded Notification whose params
fail to decode for its bound handler raises a host-visible panic with that
message — the handler is never invoked and the notification is not silently
dropped. -/
theorem c9_param_decode_failure (tbl : RequestTable) (ntbl : NotificationTable) :
    (∀ j r b, decodeMessage j = some (Message.request r) → tbl r.method = some b →
      b.decodeParams r.params = none →
      handle_incoming tbl ntbl j =
        ([Response.mkError Error.deserialize_error (some r.id)], none) ∧
      Error.deserialize_error.code.toInt = -32602 ∧
      Error.deserialize_error.message = "Could not deserialize parameter object") ∧
    (∀ j n b, decodeMessage j = some (Message.notification n) → ntbl n.method = some b →
      b.decodeParams n.params = none →
      handle_incoming tbl ntbl j =
        ([], some (NotifOutcome.panicked Error.deserialize_error.message)) ∧
      (∀ p, dispatch_notification ntbl n ≠ NotifOutcome.handled p) ∧
      dispatch_notification ntbl n ≠ NotifOutcome.dropped) := by
  constructor
  · intro j r b hj htbl hp
    exact ⟨by simp [handle_incoming, hj, dispatch_request, htbl, handle_request, hp], rfl, rfl⟩
  · intro j n b hj htbl hp
    refine ⟨by simp [handle_incoming, hj, dispatch_notification, htbl, hp], ?_, ?_⟩
    · intro p
      simp [dispatch_notification, htbl, hp]
    · simp [dispatch_notification, htbl, hp]

/-- Witness for C9: a bound request method and a bound notification method
whose parameter decoders reject every params value. -/
theorem c9_witness :
    handle_incoming
      (fun _ => some { decodeParams := fun _ => none, run := fun p => .ok p })
      (fun _ => some { decodeParams := fun _ => none })
      (Json.obj [("jsonrpc", .str "2.0"), ("method", .str "m"),
                 ("params", .null), ("id", .num 7)]) =
      ([Response.mkError Error.deserialize_error (some (Id.number 7))], none) ∧
    handle_incoming
      (fun _ => some { decodeParams := fun _ => none, run := fun p => .ok p })
      (fun _ => some { decodeParams := fun _ => none })
      (Json.obj [("jsonrpc", .str "2.0"), ("method", .str "m"), ("params", .null)]) =
      ([], some (NotifOutcome.panicked Error.deserialize_error.message)) :=
  ⟨((c9_param_decode_failure
      (fun _ => some { decodeParams := fun _ => none, run := fun p => .ok p })
      (fun _ => some { decodeParams := fun _ => none })).1
      (Json.obj [("jsonrpc", .str "2.0"), ("method", .str "m"),
                 ("params", .null), ("id", .num 7)])
      { jsonrpc := "2.0", method := "m", params := .null, id := .number 7 }
      { decodeParams := fun _ => none, run := fun p => .ok p }
      rfl rfl rfl).1,
   ((c9_param_decode_failure
      (fun _ => some { decodeParams := fun _ => none, run := fun p => .ok p })
      (fun _ => some { decodeParams := fun _ => none })).2
      (Json.obj [("jsonrpc", .str "2.0"), ("method", .str "m"), ("params", .null)])
      { jsonrpc := "2.0", method := "m", params := .null }
      { decodeParams := fun _ => none }
      rfl rfl rfl).1⟩

/-- C4: Client::handle on an inbound Response fails with the internal
assertion for a missing id; fails flagging an unexpected response when no
pending entry exists under the id — in particular on a second call for an id
it already resolved; and otherwise removes exactly the entry under the id and
resolves that one-shot sender with Err of the peer's error when present, else
Ok of the peer's result with Null substituted for an omitted result. -/
theorem c4_handle_response (tbl : PendingTable) (resp : Response) :
    (resp.id = none → Client.handle tbl resp = .error .missing_id) ∧
    (∀ i, resp.id = some i → tbl i = none →
      Client.handle tbl resp = .error .unexpected_response) ∧
    (∀ i tx, resp.id = some i → tbl i = some tx →
      ∃ tbl2 res, Client.handle tbl resp = .ok (tbl2, tx, res) ∧
        tbl2 i = none ∧
        (∀ x, x ≠ i → tbl2 x = tbl x) ∧
        (∀ e, resp.error = some e → res = .error e) ∧
        (resp.error = none → res = .ok (resp.result.getD Json.null)) ∧
        (∀ resp2, resp2.id = some i →
          Client.handle tbl2 resp2 = .error .unexpected_response)) := by
  refine ⟨?_, ?_, ?_⟩
  · intro h
    simp [Client.handle, h]
  · intro i h hn
    simp [Client.handle, h, hn]
  · intro i tx h htx
    refine ⟨fun x => if x = i then none else tbl x,
      (match resp.error with
       | some why => Except.error why
       | none => Except.ok (resp.result.getD Json.null)),
      by simp [Client.handle, h, htx], by simp, ?_, ?_, ?_, ?_⟩
    · intro x hx
      simp [hx]
    · intro e he
      simp [Client.handle, he]
    · intro he
      simp [Client.handle, he]
    · intro resp2 h2
      simp [Client.handle, h2]

/-- Witness for C4 at concrete inputs: a pending table holding sender 5
under id 1; a success response for id 1 resolves it, and the same response
handled again against the updated table is flagged as unexpected. -/
theorem c4_witness :
    ∃ tbl2 res,
      Client.handle (fun x => if x = Id.number 1 then some 5 else none)
        (Response.mkResult Json.null (Id.number 1)) = .ok (tbl2, 5, res) ∧
      tbl2 (Id.number 1) = none ∧
      (∀ x, x ≠ Id.number 1 →
        tbl2 x = (fun x => if x = Id.number 1 then some 5 else none) x) ∧
      (∀ e, (Response.mkResult Json.null (Id.number 1)).error = some e → res = .error e) ∧
      ((Response.mkResult Json.null (Id.number 1)).error = none →
        res = .ok ((Response.mkResult Json.null (Id.number 1)).result.getD Json.null)) ∧
      (∀ resp2, resp2.id = some (Id.number 1) →
        Client.handle tbl2 resp2 = .error .unexpected_response) :=
  (c4_handle_response (fun x => if x = Id.number 1 then some 5 else none)
      (Response.mkResult Json.null (Id.number 1))).2.2
    (Id.number 1) 5 rfl (by simp)

/-- C10: one Client::send_request call performs, in program order, the id
allocation, the insertion of the one-shot sender into the pending table under
that id, and only then the enqueue of the Request on the outbound channel; in
the state where the enqueue happens the pending entry already exists while the
request is not yet on the channel, so in every state of the call in which the
request is observable on the channel the pending table holds its id, and a
response bearing that id is never flagged as an unexpected response. -/
theorem c10_insert_before_enqueue (s : Client.State) (method : String) (params : Json)
    (hfresh : Request.new method params (Id.number s.request_id) ∉ s.output) :
    ∃ s1 s2 s3,
      Client.send_request_steps s method params =
        [(.alloc s.request_id, s1), (.insertPending s.request_id, s2),
         (.enqueue s.request_id, s3)] ∧
      s2.senders_by_id (Id.number s.request_id) = some s.request_id ∧
      s2.output = s.output ∧
      s3.output = s.output ++ [Request.new method params (Id.number s.request_id)] ∧
      s3.senders_by_id (Id.number s.request_id) = some s.request_id ∧
      (∀ ev st, (ev, st) ∈ Client.send_request_steps s method params →
        Request.new method params (Id.number s.request_id) ∈ st.output →
        st.senders_by_id (Id.number s.request_id) = some s.request_id) ∧
      (∀ resp : Response, resp.id = some (Id.number s.request_id) →
        Client.handle s3.senders_by_id resp ≠ .error .unexpected_response) := by
  refine ⟨_, _, _, rfl, by simp, rfl, rfl, by simp, ?_, ?_⟩
  · intro ev st hmem hout
    simp only [Client.send_request_steps, Client.fetch_add, List.mem_cons,
      List.not_mem_nil, or_false, Prod.mk.injEq] at hmem
    rcases hmem with ⟨_, h1⟩ | ⟨_, h2⟩ | ⟨_, h3⟩
    · subst h1
      simp only at hout
      exact absurd hout hfresh
    · subst h2
      simp
    · subst h3
      simp
  · intro resp hid
    simp [Client.handle, hid]

/-- Witness for C10 at a concrete fresh client state. -/
theorem c10_witness :
    ∃ s1 s2 s3,
      Client.send_request_steps
        { request_id := 0, senders_by_id := fun _ => none, output := [] } "m" Json.null =
        [(.alloc 0, s1), (.insertPending 0, s2), (.enqueue 0, s3)] ∧
      s2.senders_by_id (Id.number 0) = some 0 ∧
      s2.output = [] ∧
      s3.output = [] ++ [Request.new "m" Json.null (Id.number 0)] ∧
      s3.senders_by_id (Id.number 0) = some 0 ∧
      (∀ ev st, (ev, st) ∈ Client.send_request_steps
          { request_id := 0, senders_by_id := fun _ => none, output := [] } "m" Json.null →
        Request.new "m" Json.null (Id.number 0) ∈ st.output →
        st.senders_by_id (Id.number 0) = some 0) ∧
      (∀ resp : Response, resp.id = some (Id.number 0) →
        Client.handle s3.senders_by_id resp ≠ .error .unexpected_response) :=
  c10_insert_before_enqueue
    { request_id := 0, senders_by_id := fun _ => none, output := [] } "m" Json.null
    (List.not_mem_nil _)

/-- As long as the counter does not wrap, the allocator hands out the
consecutive values c, c+1, ... -/
theorem allocated_ids_no_wrap :
    ∀ (n c : Nat), c + n ≤ 2 ^ 64 → allocated_ids c n = List.range' c n := by
  intro n
  induction n with
  | zero => intro c _; rfl
  | succ m ih =>
    intro c hc
    cases m with
    | zero => rfl
    | succ m' =>
      have h1 : c + 1 < 2 ^ 64 := by omega
      have h2 : (c + 1) % 2 ^ 64 = c + 1 := Nat.mod_eq_of_lt h1
      show c :: allocated_ids ((c + 1) % 2 ^ 64) (m' + 1) = List.range' c (m' + 1 + 1)
      rw [h2, ih (c + 1) (by omega)]
      simp [List.range'_succ]

/-- The counter value after n atomic fetch_add operations. -/
theorem counter_after_eq :
    ∀ (n c : Nat), c < 2 ^ 64 → counter_after c n = (c + n) % 2 ^ 64 := by
  intro n
  induction n with
  | zero => intro c hc; simpa [counter_after] using (Nat.mod_eq_of_lt hc).symm
  | succ m ih =>
    intro c hc
    show counter_after ((c + 1) % 2 ^ 64) m = (c + (m + 1)) % 2 ^ 64
    rw [ih ((c + 1) % 2 ^ 64) (Nat.mod_lt _ (by norm_num)), Nat.mod_add_mod]
    ring_nf

/-- Splitting a run of allocations. -/
theorem allocated_ids_add :
    ∀ (m k c : Nat), allocated_ids c (m + k) = allocated_ids c m ++ allocated_ids (counter_after c m) k := by
  intro m
  induction m with
  | zero => intro k c; simp [allocated_ids, counter_after, Nat.zero_add]
  | succ m' ih =>
    intro k c
    have : m' + 1 + k = (m' + k) + 1 := by omega
    rw [this]
    show c :: allocated_ids ((c + 1) % 2 ^ 64) (m' + k) =
      (c :: allocated_ids ((c + 1) % 2 ^ 64) m') ++ allocated_ids (counter_after c (m' + 1)) k
    rw [ih]
    rfl

/-- C5 counterexample: the id counter is a u64 and fetch_add wraps, so on a
connection that issues 2^64 + 1 requests the allocated numeric ids are not
pairwise distinct (id 0 is handed out twice), refuting the claim as stated
for every sequence of requests. -/
theorem c5_counterexample :
    ¬ ((allocated_ids 0 (2 ^ 64 + 1)).Pairwise (· < ·) ∧
       (allocated_ids 0 (2 ^ 64 + 1)).Nodup) := by
  rintro ⟨-, hnd⟩
  have hsplit : allocated_ids 0 (2 ^ 64 + 1) =
      allocated_ids 0 (2 ^ 64) ++ allocated_ids (counter_after 0 (2 ^ 64)) 1 :=
    allocated_ids_add (2 ^ 64) 1 0
  have hc : counter_after 0 (2 ^ 64) = 0 := by
    rw [counter_after_eq (2 ^ 64) 0 (by norm_num)]
    simp
  have hzero : (0 : Nat) ∈ allocated_ids 0 (2 ^ 64) := by
    rw [allocated_ids_no_wrap (2 ^ 64) 0 (by omega)]
    rw [List.mem_range'_1]
    omega
  rw [hsplit, hc] at hnd
  rcases List.nodup_append.mp hnd with ⟨-, -, hdisj⟩
  exact hdisj hzero (by simp [allocated_ids, fetch_add])

/-- C5 amended: for every sequence of at most 2^64 outbound requests on one
connection (the u64 counter never wraps; a connection's counter starts at 0),
the numeric ids produced by the atomic fetch_add allocator — one atomic
operation per send_request call, in any interleaving of concurrent senders —
are strictly increasing in allocation order and pairwise distinct, and so are
the resulting request ids. -/
theorem c5_ids_monotone_amended (c n : Nat) (h : c + n ≤ 2 ^ 64) :
    (allocated_ids c n).Pairwise (· < ·) ∧
    (allocated_ids c n).Nodup ∧
    ((allocated_ids c n).map Id.number).Nodup := by
  rw [allocated_ids_no_wrap n c h]
  refine ⟨List.pairwise_lt_range' c n, List.nodup_range' .., ?_⟩
  exact (List.nodup_range' ..).map fun a b hab => by cases hab; rfl

/-- Witness for C5 at a concrete run: four requests from a fresh connection. -/
theorem c5_witness :
    (allocated_ids 0 4).Pairwise (· < ·) ∧
    (allocated_ids 0 4).Nodup ∧
    ((allocated_ids 0 4).map Id.number).Nodup :=
  c5_ids_monotone_amended 0 4 (by norm_num)

/-- Round trip of an id whose numeric payload is in u64 range. -/
theorem decodeId_encodeId (i : Id) (h : i.wf) : decodeId (encodeId i) = some i := by
  cases i with
  | number n =>
    have hn : n < 2 ^ 64 := h
    have h1 : (0 : Int) ≤ (n : Int) := Int.natCast_nonneg n
    have h2 : (n : Int) < (2 : Int) ^ 64 := by exact_mod_cast hn
    simp [encodeId, decodeId, h1, h2]
    omega
  | string s => rfl

/-- C6 counterexample: a request frame whose jsonrpc field is the string
"1.0" decodes successfully (the derived deserializer does not validate the
version) and is dispatched as a normal request, not treated as a ParseError. -/
theorem c6_counterexample :
    decodeMessage (Json.obj [("jsonrpc", .str "1.0"), ("method", .str "m"),
                             ("params", .null), ("id", .num 1)]) =
      some (Message.request
        { jsonrpc := "1.0", method := "m", params := .null, id := .number 1 }) ∧
    (handle_incoming (fun _ => none) (fun _ => none)
      (Json.obj [("jsonrpc", .str "1.0"), ("method", .str "m"),
                 ("params", .null), ("id", .num 1)])).1 ≠
      [Response.mkError Error.parse_error none] := by
  refine ⟨rfl, ?_⟩
  rw [show (handle_incoming (fun _ => none) (fun _ => none)
      (Json.obj [("jsonrpc", .str "1.0"), ("method", .str "m"),
                 ("params", .null), ("id", .num 1)])).1 =
      [Response.mkError Error.method_not_found_error (some (Id.number 1))] from rfl]
  simp [Response.mkError, Error.method_not_found_error, Error.parse_error]

/-- C6 amended: the jsonrpc field must be present (and a string) for a frame
to decode, but its value is not validated: a request object carrying any
version string decodes successfully with that string preserved and is
dispatched normally, while a request object with the jsonrpc field absent
fails to decode and is answered with the ParseError response. -/
theorem c6_version_amended (tbl : RequestTable) (ntbl : NotificationTable)
    (v m : String) (p : Json) (n : Nat) (h : n < 2 ^ 64) :
    decodeMessage (Json.obj [("jsonrpc", .str v), ("method", .str m),
                             ("params", p), ("id", .num (n : Int))]) =
      some (Message.request { jsonrpc := v, method := m, params := p, id := .number n }) ∧
    decodeMessage (Json.obj [("method", .str m), ("params", p),
                             ("id", .num (n : Int))]) = none ∧
    (handle_incoming tbl ntbl
      (Json.obj [("method", .str m), ("params", p), ("id", .num (n : Int))])).1 =
      [Response.mkError Error.parse_error none] := by
  have hid : decodeId (.num (n : Int)) = some (.number n) := by
    have := decodeId_encodeId (.number n) h
    simpa [encodeId] using this
  have h2 : decodeMessage (Json.obj [("method", .str m), ("params", p),
      ("id", .num (n : Int))]) = none := by
    have hj : strField [("method", .str m), ("params", p),
        ("id", .num (n : Int))] "jsonrpc" = none := rfl
    have hreq : decodeRequest (Json.obj [("method", .str m), ("params", p),
        ("id", .num (n : Int))]) = none := by
      rw [decodeRequest_obj, hj]
    have hnot : decodeNotification (Json.obj [("method", .str m), ("params", p),
        ("id", .num (n : Int))]) = none := by
      rw [decodeNotification_obj, hj]
    have hresp : decodeResponse (Json.obj [("method", .str m), ("params", p),
        ("id", .num (n : Int))]) = none := by
      rw [decodeResponse_obj, hj]
    rw [decodeMessage_def, hreq, hnot, hresp]
    rfl
  refine ⟨?_, h2, ?_⟩
  · have e1 : strField [("jsonrpc", .str v), ("method", .str m), ("params", p),
        ("id", .num (n : Int))] "jsonrpc" = some v := rfl
    have e2 : strField [("jsonrpc", .str v), ("method", .str m), ("params", p),
        ("id", .num (n : Int))] "method" = some m := rfl
    have e3 : getField [("jsonrpc", .str v), ("method", .str m), ("params", p),
        ("id", .num (n : Int))] "params" = some p := rfl
    have e4 : idField [("jsonrpc", .str v), ("method", .str m), ("params", p),
        ("id", .num (n : Int))] = some (.number n) := by
      show (getField [("jsonrpc", .str v), ("method", .str m), ("params", p),
          ("id", .num (n : Int))] "id").bind decodeId = some (.number n)
      rw [show getField [("jsonrpc", .str v), ("method", .str m), ("params", p),
          ("id", .num (n : Int))] "id" = some (.num (n : Int)) from rfl]
      rw [Option.some_bind, hid]
    have hreq : decodeRequest (Json.obj [("jsonrpc", .str v), ("method", .str m),
        ("params", p), ("id", .num (n : Int))]) =
        some { jsonrpc := v, method := m, params := p, id := .number n } := by
      rw [decodeRequest_obj, e1, e2, e3, e4]
    rw [decodeMessage_def, hreq]
  · simp only [handle_incoming]
    rw [h2]

/-- Witness for C6 at concrete inputs: version string "1.0", method "m",
null params, id 3. -/
theorem c6_witness :
    decodeMessage (Json.obj [("jsonrpc", .str "1.0"), ("method", .str "m"),
                             ("params", .null), ("id", .num ((3 : Nat) : Int))]) =
      some (Message.request
        { jsonrpc := "1.0", method := "m", params := .null, id := .number 3 }) ∧
    decodeMessage (Json.obj [("method", .str "m"), ("params", .null),
                             ("id", .num ((3 : Nat) : Int))]) = none ∧
    (handle_incoming (fun _ => none) (fun _ => none)
      (Json.obj [("method", .str "m"), ("params", .null), ("id", .num ((3 : Nat) : Int))])).1 =
      [Response.mkError Error.parse_error none] :=
  c6_version_amended (fun _ => none) (fun _ => none) "1.0" "m" Json.null 3 (by norm_num)

/-- The eight error-code wire values decode back to their codes. -/
theorem ErrorCode.ofInt_toInt (c : ErrorCode) : ErrorCode.ofInt c.toInt = some c := by
  cases c <;> rfl

/-- dataValue is the identity on present non-null values. -/
theorem dataValue_some_of_ne_null (d : Json) (hd : d ≠ Json.null) :
    dataValue (some d) = some d := by
  cases d with
  | null => exact absurd rfl hd
  | bool b => rfl
  | num n => rfl
  | str s => rfl
  | arr elems => rfl
  | obj fields => rfl

/-- Unfolding of decodeError at an object. -/
theorem decodeError_obj (fields : List (String × Json)) :
    decodeError (.obj fields) =
      match codeField fields, strField fields "message" with
      | some code, some message =>
        some { code := code, message := message, data := dataField fields }
      | _, _ => none := rfl

/-- Deserializing a serialized Error restores it, provided its data payload
is not an explicit JSON null (which collapses to an absent data field). -/
theorem decodeError_encodeError (e : Error) (h : e.data ≠ some Json.null) :
    decodeError (encodeError e) = some e := by
  obtain ⟨code, msg, data⟩ := e
  cases data with
  | none =>
    have hc : codeField [("code", .num code.toInt), ("message", .str msg)] = some code := by
      show errorCodeValue (.num code.toInt) = some code
      exact ErrorCode.ofInt_toInt code
    have hm : strField [("code", .num code.toInt), ("message", .str msg)]
        "message" = some msg := rfl
    have hdata : dataField [("code", .num code.toInt), ("message", .str msg)] = none := rfl
    show decodeError (.obj [("code", .num code.toInt), ("message", .str msg)]) =
      some { code := code, message := msg, data := none }
    rw [decodeError_obj, hc, hm, hdata]
  | some d =>
    have hd : d ≠ Json.null := by
      intro hdd
      rw [hdd] at h
      exact h rfl
    have hc : codeField [("code", .num code.toInt), ("message", .str msg),
        ("data", d)] = some code := by
      show errorCodeValue (.num code.toInt) = some code
      exact ErrorCode.ofInt_toInt code
    have hm : strField [("code", .num code.toInt), ("message", .str msg),
        ("data", d)] "message" = some msg := rfl
    have hdata : dataField [("code", .num code.toInt), ("message", .str msg),
        ("data", d)] = some d := by
      show dataValue (some d) = some d
      exact dataValue_some_of_ne_null d hd
    show decodeError (.obj [("code", .num code.toInt), ("message", .str msg),
      ("data", d)]) = some { code := code, message := msg, data := some d }
    rw [decodeError_obj, hc, hm, hdata]

/-- Assembling a successful Request decode from its field extractions. -/
theorem decodeRequest_of_fields (fields : List (String × Json)) (js me : String)
    (pa : Json) (idv : Id) (h1 : strField fields "jsonrpc" = some js)
    (h2 : strField fields "method" = some me) (h3 : getField fields "params" = some pa)
    (h4 : idField fields = some idv) :
    decodeRequest (.obj fields) =
      some { jsonrpc := js, method := me, params := pa, id := idv } := by
  rw [decodeRequest_obj, h1, h2, h3, h4]

/-- A Request decode fails when the method field is missing or not a string. -/
theorem decodeRequest_none_no_method (fields : List (String × Json)) (js : String)
    (h1 : strField fields "jsonrpc" = some js) (h2 : strField fields "method" = none) :
    decodeRequest (.obj fields) = none := by
  rw [decodeRequest_obj, h1, h2]

/-- A Request decode fails when the id field cannot be extracted. -/
theorem decodeRequest_none_no_id (fields : List (String × Json)) (js me : String)
    (pa : Json) (h1 : strField fields "jsonrpc" = some js)
    (h2 : strField fields "method" = some me) (h3 : getField fields "params" = some pa)
    (h4 : idField fields = none) : decodeRequest (.obj fields) = none := by
  rw [decodeRequest_obj, h1, h2, h3, h4]

/-- Assembling a successful Notification decode from its field extractions. -/
theorem decodeNotification_of_fields (fields : List (String × Json)) (js me : String)
    (pa : Json) (h1 : strField fields "jsonrpc" = some js)
    (h2 : strField fields "method" = some me) (h3 : getField fields "params" = some pa) :
    decodeNotification (.obj fields) =
      some { jsonrpc := js, method := me, params := pa } := by
  rw [decodeNotification_obj, h1, h2, h3]

/-- A Notification decode fails when the method field is missing. -/
theorem decodeNotification_none_no_method (fields : List (String × Json)) (js : String)
    (h1 : strField fields "jsonrpc" = some js) (h2 : strField fields "method" = none) :
    decodeNotification (.obj fields) = none := by
  rw [decodeNotification_obj, h1, h2]

/-- Assembling a successful Response decode from its field extractions. -/
theorem decodeResponse_of_fields (fields : List (String × Json)) (js : String)
    (errOpt : Option Error) (idOpt : Option Id) (res : Option Json)
    (h1 : strField fields "jsonrpc" = some js) (h2 : errorField fields = some errOpt)
    (h3 : respIdField fields = some idOpt) (h4 : getField fields "result" = res) :
    decodeResponse (.obj fields) =
      some { jsonrpc := js, result := res, error := errOpt, id := idOpt } := by
  rw [decodeResponse_obj, h1, h2, h3, h4]

/-- A frame that decodes as a Request is the Request variant of the message. -/
theorem decodeMessage_request_of (j : Json) (r : Request)
    (hreq : decodeRequest j = some r) : decodeMessage j = some (.request r) := by
  rw [decodeMessage_def, hreq]

/-- A frame that fails as a Request and decodes as a Notification is the
Notification variant. -/
theorem decodeMessage_notification_of (j : Json) (n : Notification)
    (hreq : decodeRequest j = none) (hnot : decodeNotification j = some n) :
    decodeMessage j = some (.notification n) := by
  rw [decodeMessage_def, hreq, hnot]

/-- A frame that fails as Request and Notification and decodes as a Response
is the Response variant. -/
theorem decodeMessage_response_of (j : Json) (r : Response)
    (hreq : decodeRequest j = none) (hnot : decodeNotification j = none)
    (hresp : decodeResponse j = some r) : decodeMessage j = some (.response r) := by
  rw [decodeMessage_def, hreq, hnot, hresp]
  rfl

/-- Round trip of a serialized Request (any jsonrpc string; the id must fit
in u64, as every Rust Id does). -/
theorem rt_request (r : Request) (h : r.id.wf) :
    decodeMessage (encodeMessage (.request r)) = some (.request r) := by
  obtain ⟨js, me, pa, id⟩ := r
  apply decodeMessage_request_of
  refine decodeRequest_of_fields _ js me pa id ?_ ?_ ?_ ?_
  · rfl
  · rfl
  · rfl
  · show decodeId (encodeId id) = some id
    exact decodeId_encodeId id h

/-- Round trip of a serialized Notification. -/
theorem rt_notification (n : Notification) :
    decodeMessage (encodeMessage (.notification n)) = some (.notification n) := by
  obtain ⟨js, me, pa⟩ := n
  apply decodeMessage_notification_of
  · refine decodeRequest_none_no_id _ js me pa ?_ ?_ ?_ ?_ <;> rfl
  · refine decodeNotification_of_fields _ js me pa ?_ ?_ ?_ <;> rfl

/-- Round trip of a serialized Response whose id fits in u64 and whose error,
if any, does not carry an explicit null data payload. -/
theorem rt_response (r : Response)
    (hwf : match r.id with
           | none => True
           | some i => i.wf)
    (hfaith : match r.error with
              | none => True
              | some e => e.data ≠ some Json.null) :
    decodeMessage (encodeMessage (.response r)) = some (.response r) := by
  obtain ⟨js, result, error, id⟩ := r
  rcases result with _ | rv <;> rcases error with _ | e <;> rcases id with _ | (k | s2)
  · refine decodeMessage_response_of _ _ ?_ ?_ ?_
    · refine decodeRequest_none_no_method _ js ?_ ?_ <;> rfl
    · refine decodeNotification_none_no_method _ js ?_ ?_ <;> rfl
    · exact decodeResponse_of_fields _ js _ _ _ rfl rfl rfl rfl
  · refine decodeMessage_response_of _ _ ?_ ?_ ?_
    · refine decodeRequest_none_no_method _ js ?_ ?_ <;> rfl
    · refine decodeNotification_none_no_method _ js ?_ ?_ <;> rfl
    · exact decodeResponse_of_fields _ js _ _ _ rfl rfl (by
        show (decodeId (encodeId (Id.number k))).map some = some (some (Id.number k))
        rw [decodeId_encodeId (Id.number k) hwf]
        rfl) rfl
  · refine decodeMessage_response_of _ _ ?_ ?_ ?_
    · refine decodeRequest_none_no_method _ js ?_ ?_ <;> rfl
    · refine decodeNotification_none_no_method _ js ?_ ?_ <;> rfl
    · exact decodeResponse_of_fields _ js _ _ _ rfl rfl rfl rfl
  · refine decodeMessage_response_of _ _ ?_ ?_ ?_
    · refine decodeRequest_none_no_method _ js ?_ ?_ <;> rfl
    · refine decodeNotification_none_no_method _ js ?_ ?_ <;> rfl
    · exact decodeResponse_of_fields _ js _ _ _ rfl (by
        show (decodeError (encodeError e)).map some = some (some e)
        rw [decodeError_encodeError e hfaith]
        rfl) rfl rfl
  · refine decodeMessage_response_of _ _ ?_ ?_ ?_
    · refine decodeRequest_none_no_method _ js ?_ ?_ <;> rfl
    · refine decodeNotification_none_no_method _ js ?_ ?_ <;> rfl
    · exact decodeResponse_of_fields _ js _ _ _ rfl (by
        show (decodeError (encodeError e)).map some = some (some e)
        rw [decodeError_encodeError e hfaith]
        rfl) (by
        show (decodeId (encodeId (Id.number k))).map some = some (some (Id.number k))
        rw [decodeId_encodeId (Id.number k) hwf]
        rfl) rfl
  · refine decodeMessage_response_of _ _ ?_ ?_ ?_
    · refine decodeRequest_none_no_method _ js ?_ ?_ <;> rfl
    · refine decodeNotification_none_no_method _ js ?_ ?_ <;> rfl
    · exact decodeResponse_of_fields _ js _ _ _ rfl (by
        show (decodeError (encodeError e)).map some = some (some e)
        rw [decodeError_encodeError e hfaith]
        rfl) rfl rfl
  · refine decodeMessage_response_of _ _ ?_ ?_ ?_
    · refine decodeRequest_none_no_method _ js ?_ ?_ <;> rfl
    · refine decodeNotification_none_no_method _ js ?_ ?_ <;> rfl
    · exact decodeResponse_of_fields _ js _ _ _ rfl rfl rfl rfl
  · refine decodeMessage_response_of _ _ ?_ ?_ ?_
    · refine decodeRequest_none_no_method _ js ?_ ?_ <;> rfl
    · refine decodeNotification_none_no_method _ js ?_ ?_ <;> rfl
    · exact decodeResponse_of_fields _ js _ _ _ rfl rfl (by
        show (decodeId (encodeId (Id.number k))).map some = some (some (Id.number k))
        rw [decodeId_encodeId (Id.number k) hwf]
        rfl) rfl
  · refine decodeMessage_response_of _ _ ?_ ?_ ?_
    · refine decodeRequest_none_no_method _ js ?_ ?_ <;> rfl
    · refine decodeNotification_none_no_method _ js ?_ ?_ <;> rfl
    · exact decodeResponse_of_fields _ js _ _ _ rfl rfl rfl rfl
  · refine decodeMessage_response_of _ _ ?_ ?_ ?_
    · refine decodeRequest_none_no_method _ js ?_ ?_ <;> rfl
    · refine decodeNotification_none_no_method _ js ?_ ?_ <;> rfl
    · exact decodeResponse_of_fields _ js _ _ _ rfl (by
        show (decodeError (encodeError e)).map some = some (some e)
        rw [decodeError_encodeError e hfaith]
        rfl) rfl rfl
  · refine decodeMessage_response_of _ _ ?_ ?_ ?_
    · refine decodeRequest_none_no_method _ js ?_ ?_ <;> rfl
    · refine decodeNotification_none_no_method _ js ?_ ?_ <;> rfl
    · exact decodeResponse_of_fields _ js _ _ _ rfl (by
        show (decodeError (encodeError e)).map some = some (some e)
        rw [decodeError_encodeError e hfaith]
        rfl) (by
        show (decodeId (encodeId (Id.number k))).map some = some (some (Id.number k))
        rw [decodeId_encodeId (Id.number k) hwf]
        rfl) rfl
  · refine decodeMessage_response_of _ _ ?_ ?_ ?_
    · refine decodeRequest_none_no_method _ js ?_ ?_ <;> rfl
    · refine decodeNotification_none_no_method _ js ?_ ?_ <;> rfl
    · exact decodeResponse_of_fields _ js _ _ _ rfl (by
        show (decodeError (encodeError e)).map some = some (some e)
        rw [decodeError_encodeError e hfaith]
        rfl) rfl rfl

/-- C3 counterexample: a Response whose error carries an explicit null data
payload has a defined wire form (serialization succeeds, with "data": null),
but deserializing that wire form yields a different Message: serde's Option
handling collapses the explicit null back to an absent data field, so
decode(encode(m)) differs from m and the universal round-trip claim fails. -/
theorem c3_counterexample :
    decodeMessage (encodeMessage (Message.response
      { jsonrpc := "2.0", result := none,
        error := some { code := .InternalError, message := "x", data := some Json.null },
        id := some (.number 1) })) =
      some (Message.response
        { jsonrpc := "2.0", result := none,
          error := some { code := .InternalError, message := "x", data := none },
          id := some (.number 1) }) ∧
    (Message.response
      { jsonrpc := "2.0", result := none,
        error := some { code := .InternalError, message := "x", data := some Json.null },
        id := some (.number 1) }) ≠
    (Message.response
      { jsonrpc := "2.0", result := none,
        error := some { code := .InternalError, message := "x", data := none },
        id := some (.number 1) }) := by
  constructor
  · rfl
  · intro h
    simp only [Message.response.injEq, Response.mk.injEq, Option.some.injEq,
      Error.mk.injEq, true_and, and_true] at h
    exact Option.noConfusion h

/-- C3 amended: decode(encode(m)) = m for every Message m whose ids are u64
values (automatic for the Rust types) and whose error, if any, does not carry
an explicit JSON-null data payload — that single case collapses to an absent
data field on the way back in. In particular the explicit-null result is
preserved: Response result Some(Null) round-trips, distinct from result None
whose serialization omits the field. -/
theorem c3_round_trip_amended (m : Message) (hwf : m.wf) (hfaith : m.wireFaithful) :
    decodeMessage (encodeMessage m) = some m := by
  cases m with
  | request r => exact rt_request r hwf
  | notification n => exact rt_notification n
  | response r => exact rt_response r hwf hfaith

/-- Witness for C3 at the spec's own instance: Response result Null id 42
serializes with an explicit "result": null and round-trips; the result-less
response omits the field and round-trips to None — the two stay distinct. -/
theorem c3_witness :
    decodeMessage (encodeMessage (Message.response
      (Response.mkResult Json.null (Id.number 42)))) =
      some (Message.response (Response.mkResult Json.null (Id.number 42))) ∧
    encodeMessage (Message.response (Response.mkResult Json.null (Id.number 42))) =
      Json.obj [("jsonrpc", .str "2.0"), ("result", .null), ("id", .num 42)] ∧
    encodeMessage (Message.response
      { jsonrpc := "2.0", result := none, error := none, id := some (Id.number 42) }) =
      Json.obj [("jsonrpc", .str "2.0"), ("id", .num 42)] ∧
    decodeMessage (Json.obj [("jsonrpc", .str "2.0"), ("id", .num 42)]) =
      some (Message.response
        { jsonrpc := "2.0", result := none, error := none, id := some (Id.number 42) }) :=
  ⟨c3_round_trip_amended (Message.response (Response.mkResult Json.null (Id.number 42)))
      (by norm_num [Message.wf, Response.mkResult, Id.wf]) trivial,
   rfl, rfl, rfl⟩

namespace Dispatch

/-- Order in a filtered trace lifts back to the trace: a decomposition of the
filtered list around two events induces one of the original list. -/
theorem filter_decomp {α : Type} (p : α → Bool) :
    ∀ (tr l m r : List α) (e1 e2 : α), tr.filter p = l ++ e1 :: m ++ e2 :: r →
      ∃ t1 t2 t3, tr = t1 ++ e1 :: t2 ++ e2 :: t3 := by
  intro tr
  induction tr with
  | nil =>
    intro l m r e1 e2 h
    rw [List.filter_nil] at h
    exact absurd h.symm (by simp)
  | cons a t ih =>
    intro l m r e1 e2 h
    rw [List.filter_cons] at h
    by_cases hpa : p a
    · rw [if_pos hpa] at h
      cases l with
      | nil =>
        rw [List.nil_append] at h
        injection h with h1 h2
        subst h1
        have he2 : e2 ∈ t := by
          refine List.mem_of_mem_filter (p := p) ?_
          rw [h2]
          exact List.mem_append_right m (List.mem_cons_self e2 r)
        obtain ⟨u, v, huv⟩ := List.append_of_mem he2
        exact ⟨[], u, v, by rw [huv]; rfl⟩
      | cons x l2 =>
        rw [List.cons_append] at h
        injection h with h1 h2
        obtain ⟨t1, t2, t3, ht⟩ := ih l2 m r e1 e2 h2
        exact ⟨a :: t1, t2, t3, by rw [ht]; rfl⟩
    · rw [if_neg hpa] at h
      obtain ⟨t1, t2, t3, ht⟩ := ih l m r e1 e2 h
      exact ⟨a :: t1, t2, t3, by rw [ht]; rfl⟩

/-- The invariant holds initially. -/
theorem inv_init (fs : List Frame) (i j : Nat) : Inv fs i j (init fs) := by
  refine ⟨by simp [init], ?_, ?_⟩
  · intro k w h
    exact absurd h (by simp [init])
  · show List.filter (keep i j) [] = projSpec i j 0 none
    rw [List.filter_nil]
    unfold projSpec
    rw [if_pos (Nat.zero_le i)]

/-- Reading a request frame (or generally going idle without events) at a
position other than i and j leaves the notification subtrace spec unchanged. -/
theorem projSpec_skip (i j c : Nat) (hij : i < j) (hci : c ≠ i) (hcj : c ≠ j) :
    projSpec i j c none = projSpec i j (c + 1) none := by
  simp only [projSpec]
  split_ifs <;> first | rfl | omega | simp_all

/-- Spec after the input task starts the inline handler of frame i. -/
theorem projSpec_read_i (i j w : Nat) (hij : i < j) :
    projSpec i j (i + 1) (some (i, w)) = projSpec i j i none ++ [Event.nstart i] := by
  simp only [projSpec]
  split_ifs <;> first | rfl | omega | simp_all

/-- Spec after the input task starts the inline handler of frame j. -/
theorem projSpec_read_j (i j w : Nat) (hij : i < j) :
    projSpec i j (j + 1) (some (j, w)) = projSpec i j j none ++ [Event.nstart j] := by
  simp only [projSpec]
  split_ifs <;> first | rfl | omega | simp_all

/-- Starting an inline handler at any other position adds nothing. -/
theorem projSpec_read_other (i j c w : Nat) (hij : i < j) (hci : c ≠ i) (hcj : c ≠ j) :
    projSpec i j (c + 1) (some (c, w)) = projSpec i j c none := by
  simp only [projSpec]
  split_ifs <;> first | rfl | omega | simp_all

/-- Spec after the inline handler of frame i completes. -/
theorem projSpec_done_i (i j w : Nat) (hij : i < j) :
    projSpec i j (i + 1) none = projSpec i j (i + 1) (some (i, w)) ++ [Event.nend i] := by
  simp only [projSpec]
  split_ifs <;> first | rfl | omega | simp_all

/-- Spec after the inline handler of frame j completes. -/
theorem projSpec_done_j (i j w : Nat) (hij : i < j) :
    projSpec i j (j + 1) none = projSpec i j (j + 1) (some (j, w)) ++ [Event.nend j] := by
  simp only [projSpec]
  split_ifs <;> first | rfl | omega | simp_all

/-- Completing an inline handler at any other position adds nothing. -/
theorem projSpec_done_other (i j k w : Nat) (hij : i < j) (hki : k ≠ i) (hkj : k ≠ j) :
    projSpec i j (k + 1) none = projSpec i j (k + 1) (some (k, w)) := by
  simp only [projSpec]
  split_ifs <;> first | rfl | omega | simp_all

end Dispatch

namespace Dispatch

/-- The subtrace spec does not depend on the remaining work of the inline
handler. -/
theorem projSpec_current_work (i j c k w w' : Nat) :
    projSpec i j c (some (k, w)) = projSpec i j c (some (k, w')) := by
  simp only [projSpec]

/-- One scheduler step preserves the invariant. -/
theorem inv_step (fs : List Frame) (i j wi wj : Nat) (hij : i < j)
    (hi : fs.get? i = some (Frame.notification wi))
    (hj : fs.get? j = some (Frame.notification wj))
    (s s' : DState) (hstep : Step s s') (hinv : Inv fs i j s) : Inv fs i j s' := by
  obtain ⟨hq, hcur, hproj⟩ := hinv
  cases hstep with
  | read_request w rest hcv hqv =>
    have hd : fs.drop s.consumed = Frame.request w :: rest := by rw [← hq, hqv]
    have hfs : fs.get? s.consumed = some (Frame.request w) := by
      have h0 := List.get?_drop fs s.consumed 0
      rw [hd, Nat.add_zero] at h0
      exact h0.symm
    have hci : s.consumed ≠ i := by
      intro hh
      rw [hh] at hfs
      exact absurd (hi.symm.trans hfs) (by simp)
    have hcj : s.consumed ≠ j := by
      intro hh
      rw [hh] at hfs
      exact absurd (hj.symm.trans hfs) (by simp)
    refine ⟨?_, ?_, ?_⟩
    · show rest = fs.drop (s.consumed + 1)
      rw [← List.tail_drop fs s.consumed, hd]
      rfl
    · intro k w' h
      exact Option.noConfusion h
    · show s.trace.filter (keep i j) = projSpec i j (s.consumed + 1) none
      rw [hproj, hcv]
      exact projSpec_skip i j s.consumed hij hci hcj
  | read_notification w rest hcv hqv =>
    have hd : fs.drop s.consumed = Frame.notification w :: rest := by rw [← hq, hqv]
    refine ⟨?_, ?_, ?_⟩
    · show rest = fs.drop (s.consumed + 1)
      rw [← List.tail_drop fs s.consumed, hd]
      rfl
    · intro k w' h
      have h2 : s.consumed = k ∧ w = w' := by simpa using h
      show s.consumed + 1 = k + 1
      omega
    · show (s.trace ++ [Event.nstart s.consumed]).filter (keep i j) =
        projSpec i j (s.consumed + 1) (some (s.consumed, w))
      have hpr : s.trace.filter (keep i j) = projSpec i j s.consumed none := by
        rw [hproj, hcv]
      rw [List.filter_append, hpr]
      rcases eq_or_ne s.consumed i with hci | hci
      · rw [hci, show List.filter (keep i j) [Event.nstart i] = [Event.nstart i] by
          simp [keep]]
        exact (projSpec_read_i i j w hij).symm
      · rcases eq_or_ne s.consumed j with hcj | hcj
        · rw [hcj, show List.filter (keep i j) [Event.nstart j] = [Event.nstart j] by
            simp [keep]]
          exact (projSpec_read_j i j w hij).symm
        · rw [show List.filter (keep i j) [Event.nstart s.consumed] = [] by
            simp [keep, hci, hcj], List.append_nil]
          exact (projSpec_read_other i j s.consumed w hij hci hcj).symm
  | notification_work k w hcv =>
    refine ⟨hq, ?_, ?_⟩
    · intro k' w' h
      have h2 : k = k' ∧ w = w' := by simpa using h
      have h3 := hcur k (w + 1) hcv
      show s.consumed = k' + 1
      omega
    · show (s.trace ++ [Event.nwork k]).filter (keep i j) =
        projSpec i j s.consumed (some (k, w))
      rw [List.filter_append, hproj, hcv,
        show List.filter (keep i j) [Event.nwork k] = [] by simp [keep],
        List.append_nil]
      exact projSpec_current_work i j s.consumed k (w + 1) w
  | notification_done k hcv =>
    have hck : s.consumed = k + 1 := hcur k 0 hcv
    refine ⟨hq, ?_, ?_⟩
    · intro k' w' h
      exact Option.noConfusion h
    · show (s.trace ++ [Event.nend k]).filter (keep i j) =
        projSpec i j s.consumed none
      rw [List.filter_append, hproj, hcv, hck]
      rcases eq_or_ne k i with hki | hki
      · rw [hki, show List.filter (keep i j) [Event.nend i] = [Event.nend i] by
          simp [keep]]
        exact (projSpec_done_i i j 0 hij).symm
      · rcases eq_or_ne k j with hkj | hkj
        · rw [hkj, show List.filter (keep i j) [Event.nend j] = [Event.nend j] by
            simp [keep]]
          exact (projSpec_done_j i j 0 hij).symm
        · rw [show List.filter (keep i j) [Event.nend k] = [] by
            simp [keep, hki, hkj], List.append_nil]
          exact (projSpec_done_other i j k 0 hij hki hkj).symm
  | task_work k w l r htv =>
    refine ⟨hq, hcur, ?_⟩
    show (s.trace ++ [Event.rstep k]).filter (keep i j) =
      projSpec i j s.consumed s.current
    rw [List.filter_append, hproj,
      show List.filter (keep i j) [Event.rstep k] = [] by simp [keep],
      List.append_nil]
  | task_done k l r htv =>
    refine ⟨hq, hcur, ?_⟩
    show (s.trace ++ [Event.rdone k]).filter (keep i j) =
      projSpec i j s.consumed s.current
    rw [List.filter_append, hproj,
      show List.filter (keep i j) [Event.rdone k] = [] by simp [keep],
      List.append_nil]

/-- The invariant holds in every reachable state. -/
theorem inv_reaches (fs : List Frame) (i j wi wj : Nat) (hij : i < j)
    (hi : fs.get? i = some (Frame.notification wi))
    (hj : fs.get? j = some (Frame.notification wj))
    (s : DState) (h : Reaches fs s) : Inv fs i j s := by
  induction h with
  | refl => exact inv_init fs i j
  | tail hsteps hstep ih => exact inv_step fs i j wi wj hij hi hj _ _ hstep ih

end Dispatch

/-- C2: in every schedule of the listen loop, for two notification frames at
input positions i < j, the inline handler of the earlier one completes (its
nend event) strictly before the handler of the later one begins (its nstart
event): whenever nstart j has been emitted, the trace splits around
nend i occurring before nstart j. The input task only reads a frame while it
is not awaiting an inline notification handler, while spawned request-handler
tasks interleave freely. -/
theorem c2_notification_order (fs : List Frame) (i j wi wj : Nat) (s : DState)
    (hij : i < j) (hi : fs.get? i = some (Frame.notification wi))
    (hj : fs.get? j = some (Frame.notification wj))
    (hr : Reaches fs s) (hstart : Event.nstart j ∈ s.trace) :
    ∃ t1 t2 t3, s.trace = t1 ++ Event.nend i :: t2 ++ Event.nstart j :: t3 := by
  obtain ⟨-, -, hproj⟩ := inv_reaches fs i j wi wj hij hi hj s hr
  have hmem : Event.nstart j ∈ s.trace.filter (keep i j) :=
    List.mem_filter.mpr ⟨hstart, by simp [keep]⟩
  rcases hcv : s.current with _ | kw
  · rw [hcv] at hproj
    simp only [projSpec] at hproj
    split_ifs at hproj with h1 h2
    · rw [hproj] at hmem
      simp at hmem
    · rw [hproj] at hmem
      simp at hmem
      omega
    · exact filter_decomp (keep i j) s.trace [Event.nstart i] [] [Event.nend j]
        (Event.nend i) (Event.nstart j) (by rw [hproj]; rfl)
  · obtain ⟨k, w⟩ := kw
    rw [hcv] at hproj
    simp only [projSpec] at hproj
    split_ifs at hproj with h1 h2 h3 h4
    · rw [hproj] at hmem
      simp at hmem
    · rw [hproj] at hmem
      simp at hmem
      omega
    · exact filter_decomp (keep i j) s.trace [Event.nstart i] [] []
        (Event.nend i) (Event.nstart j) (by rw [hproj]; rfl)
    · rw [hproj] at hmem
      simp at hmem
      omega
    · exact filter_decomp (keep i j) s.trace [Event.nstart i] [] [Event.nend j]
        (Event.nend i) (Event.nstart j) (by rw [hproj]; rfl)

/-- Witness for C2: a concrete schedule of two notification frames; in the
reached trace the first handler's nend precedes the second handler's nstart. -/
theorem c2_witness :
    ∃ t1 t2 t3, ([Event.nstart 0, Event.nend 0, Event.nstart 1] : List Event) =
      t1 ++ Event.nend 0 :: t2 ++ Event.nstart 1 :: t3 :=
  c2_notification_order [Frame.notification 0, Frame.notification 0] 0 1 0 0
    ⟨2, [], some (1, 0), [], [Event.nstart 0, Event.nend 0, Event.nstart 1]⟩
    (by decide) rfl rfl
    (Relation.ReflTransGen.head
      (show Step (init [Frame.notification 0, Frame.notification 0])
          ⟨1, [Frame.notification 0], some (0, 0), [], [Event.nstart 0]⟩ from
        Step.read_notification _ 0 [Frame.notification 0] rfl rfl)
      (Relation.ReflTransGen.head
        (show Step ⟨1, [Frame.notification 0], some (0, 0), [], [Event.nstart 0]⟩
            ⟨1, [Frame.notification 0], none, [], [Event.nstart 0, Event.nend 0]⟩ from
          Step.notification_done _ 0 rfl)
        (Relation.ReflTransGen.head
          (show Step ⟨1, [Frame.notification 0], none, [], [Event.nstart 0, Event.nend 0]⟩
              ⟨2, [], some (1, 0), [], [Event.nstart 0, Event.nend 0, Event.nstart 1]⟩ from
            Step.read_notification _ 0 [] rfl rfl)
          Relation.ReflTransGen.refl)))
    (by decide)
